import Mathlib

/-!
Shallow embedding of `scripts/modular_build.py` (BadCppLib modular build
system) and proofs about its dependency resolver, build pipeline and test
orchestrator.

The registry `self.modules`, the resolver `resolve_dependencies`, the
source/define gathering `collect_sources` / `collect_defines`, the library
pipeline `build_library`, the test pipeline `build_tests`, and the phase
logic of `main` are translated below.  External effects (filesystem
existence checks, compiler / archiver / test-executable processes) are
passed in as function parameters; Python's unbounded recursion is modelled
with an explicit fuel argument (exhaustion plays the role of Python's
`RecursionError`), and Python `set` values are modelled as lists considered
up to membership, with the unspecified iteration order made explicit as the
list order.
-/

namespace ModularBuild

/-- One entry of the `self.modules` dictionary of `ModularBuildSystem.__init__`. -/
structure Module where
  description : String
  depends : List String
  headers : List String
  sources : List String
  defines : List String
  required : Bool
deriving DecidableEq

/-- Outcome of a failed resolution: Python's
`ValueError(f"Unknown module: {name}")` or recursion-limit exhaustion
(`RecursionError`), made explicit as fuel running out. -/
inductive ResolveError where
  | unknown (name : String)
  | fuel
deriving DecidableEq

/-- The module registry of `ModularBuildSystem.__init__`, in declaration
order of the Python dict literal. -/
def badRegistry : List (String × Module) :=
  [ ("core",
      ⟨"Core types and utilities", [], ["badcpplib/core.hpp"], [],
        ["BADCPPLIB_ENABLE_CORE"], true⟩),
    ("result",
      ⟨"Result<T,E> type for error handling", ["core"], ["badcpplib/result.hpp"], [],
        ["BADCPPLIB_ENABLE_RESULT"], false⟩),
    ("string_utils",
      ⟨"String manipulation utilities", ["core"], ["badcpplib/string_utils.hpp"],
        ["modules/string_utils.cpp"], ["BADCPPLIB_ENABLE_STRING"], false⟩),
    ("math_utils",
      ⟨"Mathematical functions and utilities", ["core"], ["badcpplib/math_utils.hpp"],
        ["modules/math_utils.cpp"], ["BADCPPLIB_ENABLE_MATH"], false⟩),
    ("containers",
      ⟨"Custom container classes", ["core"], ["badcpplib/containers.hpp"], [],
        ["BADCPPLIB_ENABLE_CONTAINERS"], false⟩),
    ("file_utils",
      ⟨"File and filesystem utilities", ["core", "result"], ["badcpplib/file_utils.hpp"], [],
        ["BADCPPLIB_ENABLE_FILE_UTILS"], false⟩),
    ("time_utils",
      ⟨"Time and duration utilities", ["core", "result"], ["badcpplib/time_utils.hpp"], [],
        ["BADCPPLIB_ENABLE_TIME_UTILS"], false⟩),
    ("functional",
      ⟨"Functional programming utilities", ["core"], ["badcpplib/functional.hpp"], [],
        ["BADCPPLIB_ENABLE_FUNCTIONAL"], false⟩),
    ("debug",
      ⟨"Debug and logging utilities", ["core", "time_utils"], ["badcpplib/debug.hpp"], [],
        ["BADCPPLIB_ENABLE_DEBUG"], false⟩),
    ("memory",
      ⟨"Memory management utilities", ["core"], ["badcpplib/memory.hpp"], [],
        ["BADCPPLIB_ENABLE_MEMORY"], false⟩),
    ("test_framework",
      ⟨"Custom testing framework", ["core"], ["badcpplib/test_framework.hpp"],
        ["modules/test_framework.cpp"], ["BADCPPLIB_ENABLE_TEST"], false⟩) ]

/-- Dictionary lookup `self.modules[name]` / `name in self.modules`. -/
def lookupModule (reg : List (String × Module)) (name : String) : Option Module :=
  match reg.find? (fun p => p.1 == name) with
  | none => none
  | some p => some p.2

/-- `resolved.add(name)` on the Python set, modelled on lists:
a no-op when already a member. -/
def setAdd (s : List String) (x : String) : List String :=
  if x ∈ s then s else s ++ [x]

/-- The `for dep in module['depends']` / `for module_name in module_names`
loops of `resolve_dependencies`: run `f` (one `resolve_module` call) on each
name in turn, threading the `resolved` set, stopping at the first raised
error. -/
def resolveFold (f : String → List String → Except ResolveError (List String)) :
    List String → List String → Except ResolveError (List String)
  | [], resolved => Except.ok resolved
  | d :: ds, resolved =>
    match f d resolved with
    | Except.error e => Except.error e
    | Except.ok r => resolveFold f ds r

/-- The inner `resolve_module` closure of
`ModularBuildSystem.resolve_dependencies`: return early if `name` is
already resolved, raise on a name absent from the registry, otherwise
resolve all dependencies first and then add `name`.  `fuel` bounds the
recursion depth exactly as Python's recursion limit does. -/
def resolveModule (reg : List (String × Module)) :
    Nat → String → List String → Except ResolveError (List String)
  | 0, _, _ => Except.error ResolveError.fuel
  | fuel + 1, name, resolved =>
    if name ∈ resolved then Except.ok resolved
    else
      match lookupModule reg name with
      | none => Except.error (ResolveError.unknown name)
      | some m =>
        match resolveFold (fun d s => resolveModule reg fuel d s) m.depends resolved with
        | Except.error e => Except.error e
        | Except.ok r => Except.ok (setAdd r name)

/-- `ModularBuildSystem.resolve_dependencies`: start from the empty set,
always resolve `"core"` first, then each requested name in order. -/
def resolve_dependencies (reg : List (String × Module)) (fuel : Nat)
    (module_names : List String) : Except ResolveError (List String) :=
  match resolveModule reg fuel "core" [] with
  | Except.error e => Except.error e
  | Except.ok r => resolveFold (fun d s => resolveModule reg fuel d s) module_names r

/-- The dependency list of a registered module (empty for unregistered
names; `resolve_dependencies` raises before ever reading dependencies of an
unregistered name). -/
def depsOf (reg : List (String × Module)) (n : String) : List String :=
  match lookupModule reg n with
  | some m => m.depends
  | none => []

/-- A set of module names is dependency-closed: every declared dependency
of every member is again a member. -/
def DepClosed (reg : List (String × Module)) (s : List String) : Prop :=
  ∀ n ∈ s, ∀ d ∈ depsOf reg n, d ∈ s

/-- Every member of the set is a name present in the registry. -/
def AllKnown (reg : List (String × Module)) (s : List String) : Prop :=
  ∀ n ∈ s, (lookupModule reg n).isSome = true

/-- A registry whose dependency graph has a genuine cycle
(`alpha` ↔ `beta`), exercising `resolve_dependencies` exactly as a cyclic
`self.modules` table would. -/
def cycReg : List (String × Module) :=
  [ ("core", ⟨"Core types and utilities", [], [], [], [], true⟩),
    ("alpha", ⟨"first half of a cycle", ["beta"], [], [], [], false⟩),
    ("beta", ⟨"second half of a cycle", ["alpha"], [], [], [], false⟩) ]

/-! ## Build pipeline (`build_library`) and test pipeline (`build_tests`)

External collaborators are parameters: `fs` is the filesystem existence
check (`Path.exists`), `comp`, `arch`, `compT` describe the observable
behaviour (`subprocess.run` result) of the compiler and archiver processes
on the command built for a given file, and `runT` is the exit status of a
compiled test executable. -/

/-- Captured result of one `subprocess.run` call. -/
structure ProcResult where
  returncode : Int
  stdout : String
  stderr : String
deriving DecidableEq

/-- The `module['sources']` read of `collect_sources` (the registry lookup
cannot fail there: every caller passes a resolved set, whose members are
all registered). -/
def sourcesOf (reg : List (String × Module)) (n : String) : List String :=
  match lookupModule reg n with
  | some m => m.sources
  | none => []

/-- The `module['defines']` read of `collect_defines`. -/
def definesOf (reg : List (String × Module)) (n : String) : List String :=
  match lookupModule reg n with
  | some m => m.defines
  | none => []

/-- `ModularBuildSystem.collect_sources`: walk the module set in its
(unspecified) iteration order `modulesIter` and keep, for each module in
turn, the declared sources that exist on disk, as paths under `src/`. -/
def collect_sources (fs : String → Bool) (reg : List (String × Module))
    (modulesIter : List String) : List String :=
  modulesIter.flatMap (fun n => ((sourcesOf reg n).map (fun src => "src/" ++ src)).filter fs)

/-- `ModularBuildSystem.collect_defines`: concatenate the define lists of
the modules in iteration order. -/
def collect_defines (reg : List (String × Module)) (modulesIter : List String) : List String :=
  modulesIter.flatMap (fun n => definesOf reg n)

/-- Modelled from the spec: "Gather the union of all source files declared
by modules in `resolved`, in registry order, de-duplicated."  This is the
gathering order §4.4 of the spec prescribes — registry declaration order —
stated here only to compare it against what `collect_sources` actually
does. -/
def registryOrderSources (fs : String → Bool) (reg : List (String × Module))
    (modulesIter : List String) : List String :=
  (reg.flatMap (fun p =>
    if p.1 ∈ modulesIter then (p.2.sources.map (fun src => "src/" ++ src)).filter fs
    else [])).dedup

/-- Final component of a path (`Path.name`): the characters after the last
slash. -/
def baseName (p : String) : String :=
  ⟨(p.data.reverse.takeWhile (fun c => c != '/')).reverse⟩

/-- Final component without its last extension (`Path.stem`), for names
that contain a dot: drop the final dot and everything after it. -/
def fileStem (p : String) : String :=
  let name := (baseName p).data
  if '.' ∈ name then ⟨((name.reverse.dropWhile (fun c => c != '.')).drop 1).reverse⟩
  else baseName p

/-- Object file path chosen by `build_library` for a source
(`build_dir / f"{src.stem}.o"`, POSIX toolchain branch). -/
def objFile (src : String) : String := "build_cmake/" ++ fileStem src ++ ".o"

/-- External process invocations `build_library` performs, in order. -/
inductive BuildEvent where
  | compileCall (src : String)
  | archiveCall (objs : List String)
deriving DecidableEq

/-- Result of `build_library`, refining its Python `bool` with the printed
failure report (offending file name and captured stderr). -/
inductive BuildOutcome where
  | noSources
  | compileError (file : String) (diag : String)
  | archiveError (diag : String)
  | built (archive : String)
deriving DecidableEq

/-- The Python `bool` `build_library` returns. -/
def BuildOutcome.toBool : BuildOutcome → Bool
  | BuildOutcome.noSources => true
  | BuildOutcome.compileError _ _ => false
  | BuildOutcome.archiveError _ => false
  | BuildOutcome.built _ => true

/-- The per-source compile loop of `build_library` (POSIX toolchain
branch): invoke the compiler on each source in order; stop at the first
non-zero exit, reporting the file's name and the captured stderr;
otherwise accumulate the object paths.  Also records which compiler
invocations were made. -/
def compileLoop (comp : String → ProcResult) :
    List String → List BuildEvent × Except (String × String) (List String)
  | [] => ([], Except.ok [])
  | src :: rest =>
    let r := comp src
    if r.returncode == 0 then
      let next := compileLoop comp rest
      (BuildEvent.compileCall src :: next.1,
        match next.2 with
        | Except.error e => Except.error e
        | Except.ok objs => Except.ok (objFile src :: objs))
    else ([BuildEvent.compileCall src], Except.error (baseName src, r.stderr))

/-- `ModularBuildSystem.build_library` (POSIX toolchain branch): collect
the sources of the module set, succeed trivially when there are none,
otherwise compile each source and — only when every compile succeeded —
invoke the archiver once on all objects. -/
def build_library (fs : String → Bool) (comp : String → ProcResult)
    (arch : List String → ProcResult) (reg : List (String × Module))
    (modulesIter : List String) : BuildOutcome × List BuildEvent :=
  let sources := collect_sources fs reg modulesIter
  if sources.isEmpty then (BuildOutcome.noSources, [])
  else
    match compileLoop comp sources with
    | (evs, Except.error fd) => (BuildOutcome.compileError fd.1 fd.2, evs)
    | (evs, Except.ok objs) =>
      let r := arch objs
      if r.returncode == 0 then
        (BuildOutcome.built "build_cmake/libbadcpplib.a", evs ++ [BuildEvent.archiveCall objs])
      else (BuildOutcome.archiveError r.stderr, evs ++ [BuildEvent.archiveCall objs])

/-- Test discovery of `build_tests`: the shared `basic_test.cpp` when it
exists, then `tests/modules/test_<module>.cpp` for each module of the set
(in iteration order) that has one. -/
def test_files (fs : String → Bool) (modulesIter : List String) : List String :=
  (if fs "tests/basic_test.cpp" then ["tests/basic_test.cpp"] else []) ++
    modulesIter.filterMap (fun n =>
      let f := "tests/modules/test_" ++ n ++ ".cpp"
      if fs f then some f else none)

/-- Per-test detail recorded by the `build_tests` loop. -/
inductive TestDetail where
  | compileFail (diag : String)
  | passed
  | runtimeFail (code : Int)
deriving DecidableEq

def isPassed : TestDetail → Bool
  | TestDetail.passed => true
  | _ => false

/-- One iteration of the `build_tests` loop on a discovered test file:
compile it (on failure, record and `continue`), then run the executable;
exit status 0 is a pass, anything else a runtime failure. -/
def runOneTest (compT : String → ProcResult) (runT : String → Int)
    (f : String) : TestDetail :=
  let c := compT f
  if c.returncode == 0 then
    let code := runT f
    if code == 0 then TestDetail.passed else TestDetail.runtimeFail code
  else TestDetail.compileFail c.stderr

/-- Aggregate outcome of `build_tests`: the per-test details in discovery
order, the `success_count`/`total_count` counters, and the returned bool. -/
structure TestReport where
  results : List (String × TestDetail)
  success_count : Nat
  total_count : Nat
  ok : Bool
deriving DecidableEq

/-- `ModularBuildSystem.build_tests`: discover test files, return `True`
early when none exists, otherwise attempt every test (a compile failure is
recorded and the loop continues) and report
`success_count == total_count`. -/
def build_tests (fs : String → Bool) (compT : String → ProcResult)
    (runT : String → Int) (modulesIter : List String) : TestReport :=
  let files := test_files fs modulesIter
  if files.isEmpty then ⟨[], 0, 0, true⟩
  else
    let results := files.map (fun f => (f, runOneTest compT runT f))
    let succ := (results.filter (fun r => isPassed r.2)).length
    ⟨results, succ, files.length, succ == files.length⟩

/-- Phases `main` may run after a successful resolution. -/
inductive Phase where
  | build
  | test
deriving DecidableEq

/-- The phase logic of `main`: resolve first — any resolution exception
aborts with an error before any other phase — then build the library unless
`--test-only`, then run tests when `--test` or `--test-only`. -/
def main_phases (reg : List (String × Module)) (fuel : Nat)
    (modulesToBuild : List String) (testOnly runTest : Bool) :
    Except ResolveError (List Phase) :=
  match resolve_dependencies reg fuel modulesToBuild with
  | Except.error e => Except.error e
  | Except.ok _ =>
    Except.ok ((if testOnly then [] else [Phase.build]) ++
      (if runTest || testOnly then [Phase.test] else []))

/-- The module set `main` hands to `build_tests`:
`resolved_modules | {'test_framework'}`. -/
def main_test_modules (resolved : List String) : List String :=
  setAdd resolved "test_framework"

/-- A filesystem on which every path exists (all declared sources and test
files are present on disk). -/
def allFilesExist : String → Bool := fun _ => true

/-- A compiler whose invocation fails (exit code 1) exactly on the
`math_utils` source and succeeds on everything else. -/
def failing_comp : String → ProcResult := fun s =>
  if s = "src/modules/math_utils.cpp" then ⟨1, "", "math_utils.cpp:1:1: error"⟩
  else ⟨0, "", ""⟩

/-- An archiver that always succeeds. -/
def quiet_arch : List String → ProcResult := fun _ => ⟨0, "", ""⟩

example : resolve_dependencies badRegistry 20 ["debug"] =
    Except.ok ["core", "result", "time_utils", "debug"] := rfl

example : ∀ fuel, resolve_dependencies badRegistry (fuel + 1) [] = Except.ok ["core"] :=
  fun _ => rfl

example : resolve_dependencies badRegistry 20 ["bogus"] =
    Except.error (ResolveError.unknown "bogus") := rfl

theorem mem_setAdd {s : List String} {a x : String} : x ∈ setAdd s a ↔ x ∈ s ∨ x = a := by
  unfold setAdd
  by_cases h : a ∈ s
  · simp only [if_pos h]
    constructor
    · exact Or.inl
    · rintro (hx | rfl)
      · exact hx
      · exact h
  · simp [if_neg h]

theorem subset_setAdd (s : List String) (a : String) : s ⊆ setAdd s a :=
  fun _ hx => mem_setAdd.mpr (Or.inl hx)

theorem self_mem_setAdd (s : List String) (a : String) : a ∈ setAdd s a :=
  mem_setAdd.mpr (Or.inr rfl)

/-- Behaviour of one pass of the dependency loop on a successful run:
the resolved set only grows, every processed name ends up resolved, and
both dependency-closedness and registry-membership of the resolved set are
preserved, provided each individual `resolve_module` call has these
properties. -/
theorem resolveFold_ok_facts (reg : List (String × Module))
    (f : String → List String → Except ResolveError (List String))
    (hf : ∀ d s t, f d s = Except.ok t →
      s ⊆ t ∧ d ∈ t ∧ (DepClosed reg s → DepClosed reg t) ∧
        (AllKnown reg s → AllKnown reg t)) :
    ∀ ns s t, resolveFold f ns s = Except.ok t →
      s ⊆ t ∧ (∀ d ∈ ns, d ∈ t) ∧ (DepClosed reg s → DepClosed reg t) ∧
        (AllKnown reg s → AllKnown reg t)
  | [], s, t, h => by
    simp only [resolveFold] at h
    cases h
    exact ⟨fun _ hx => hx, by simp, id, id⟩
  | d :: ds, s, t, h => by
    simp only [resolveFold] at h
    cases hd : f d s with
    | error e => rw [hd] at h; cases h
    | ok u =>
      rw [hd] at h
      obtain ⟨h1, h2, h3, h4⟩ := hf d s u hd
      obtain ⟨g1, g2, g3, g4⟩ := resolveFold_ok_facts reg f hf ds u t h
      refine ⟨fun x hx => g1 (h1 hx), ?_, fun hc => g3 (h3 hc), fun hk => g4 (h4 hk)⟩
      intro x hx
      rcases List.mem_cons.mp hx with rfl | hx
      · exact g1 h2
      · exact g2 x hx

/-- Behaviour of one successful `resolve_module` call: the resolved set
only grows, the resolved name is a member afterwards, and both
dependency-closedness and registry-membership are preserved. -/
theorem resolveModule_ok_facts (reg : List (String × Module)) :
    ∀ fuel name s t, resolveModule reg fuel name s = Except.ok t →
      s ⊆ t ∧ name ∈ t ∧ (DepClosed reg s → DepClosed reg t) ∧
        (AllKnown reg s → AllKnown reg t) := by
  intro fuel
  induction fuel with
  | zero => intro name s t h; exact absurd h (by simp [resolveModule])
  | succ fuel ih =>
    intro name s t h
    rw [resolveModule] at h
    by_cases hm : name ∈ s
    · rw [if_pos hm] at h
      cases h
      exact ⟨fun _ hx => hx, hm, id, id⟩
    · rw [if_neg hm] at h
      cases hl : lookupModule reg name with
      | none => simp only [hl] at h; cases h
      | some m =>
        simp only [hl] at h
        cases hr : resolveFold (fun d s => resolveModule reg fuel d s) m.depends s with
        | error e => rw [hr] at h; cases h
        | ok r =>
          rw [hr] at h
          cases h
          obtain ⟨g1, g2, g3, g4⟩ :=
            resolveFold_ok_facts reg _ (fun d s t hds => ih d s t hds) m.depends s r hr
          refine ⟨fun x hx => subset_setAdd r name (g1 hx), self_mem_setAdd r name,
            ?_, ?_⟩
          · intro hc x hx d hd
            rcases mem_setAdd.mp hx with hx | rfl
            · exact subset_setAdd r name (g3 hc x hx d hd)
            · have hdeps : depsOf reg x = m.depends := by simp [depsOf, hl]
              rw [hdeps] at hd
              exact subset_setAdd r _ (g2 d hd)
          · intro hk x hx
            rcases mem_setAdd.mp hx with hx | rfl
            · exact g4 hk x hx
            · simp [hl]

/-- Companion to `resolveModule_bounded` for the dependency loop. -/
theorem resolveFold_bounded (T : List String)
    (f : String → List String → Except ResolveError (List String))
    (hf : ∀ d s t, d ∈ T → s ⊆ T → f d s = Except.ok t → t ⊆ T) :
    ∀ ns s t, (∀ d ∈ ns, d ∈ T) → s ⊆ T → resolveFold f ns s = Except.ok t → t ⊆ T
  | [], s, t, _, hs, h => by simp only [resolveFold] at h; cases h; exact hs
  | d :: ds, s, t, hds, hs, h => by
    simp only [resolveFold] at h
    cases hd : f d s with
    | error e => rw [hd] at h; cases h
    | ok u =>
      rw [hd] at h
      have hu : u ⊆ T := hf d s u (hds d (List.mem_cons_self d ds)) hs hd
      exact resolveFold_bounded T f hf ds u t
        (fun x hx => hds x (List.mem_cons_of_mem d hx)) hu h

/-- Staying inside a dependency-closed superset: a successful
`resolve_module` run started inside a dependency-closed set `T` on a name
of `T` never leaves `T`. -/
theorem resolveModule_bounded (reg : List (String × Module)) (T : List String)
    (hT : DepClosed reg T) :
    ∀ fuel name s t, name ∈ T → s ⊆ T →
      resolveModule reg fuel name s = Except.ok t → t ⊆ T := by
  intro fuel
  induction fuel with
  | zero => intro name s t _ _ h; exact absurd h (by simp [resolveModule])
  | succ fuel ih =>
    intro name s t hname hs h
    rw [resolveModule] at h
    by_cases hm : name ∈ s
    · rw [if_pos hm] at h; cases h; exact hs
    · rw [if_neg hm] at h
      cases hl : lookupModule reg name with
      | none => simp only [hl] at h; cases h
      | some m =>
        simp only [hl] at h
        cases hr : resolveFold (fun d s => resolveModule reg fuel d s) m.depends s with
        | error e => rw [hr] at h; cases h
        | ok r =>
          rw [hr] at h
          cases h
          have hdepsT : ∀ d ∈ m.depends, d ∈ T := by
            intro d hd
            have : depsOf reg name = m.depends := by simp [depsOf, hl]
            exact hT name hname d (by rw [this]; exact hd)
          have hrT : r ⊆ T :=
            resolveFold_bounded T _ (fun d s t hdT hsT => ih d s t hdT hsT)
              m.depends s r hdepsT hs hr
          intro x hx
          rcases mem_setAdd.mp hx with hx | rfl
          · exact hrT hx
          · exact hname

theorem lookupModule_mem {reg : List (String × Module)} {name : String} {m : Module}
    (h : lookupModule reg name = some m) : (name, m) ∈ reg := by
  unfold lookupModule at h
  cases hf : reg.find? (fun p => p.1 == name) with
  | none => rw [hf] at h; cases h
  | some p =>
    simp only [hf] at h
    cases h
    have hp := List.find?_some hf
    have hpe : p.1 = name := by simpa using hp
    have hmem := List.mem_of_find?_eq_some hf
    subst hpe
    rw [Prod.mk.eta]
    exact hmem

/-- Depth rank of each registered module in the (acyclic) dependency graph
of `badRegistry`; every declared dependency has strictly smaller rank. -/
def rankOf (name : String) : Nat :=
  if name == "debug" then 3
  else if name == "file_utils" then 2
  else if name == "time_utils" then 2
  else if name == "core" then 0
  else 1

theorem badRegistry_dep_facts :
    ∀ p ∈ badRegistry, ∀ d ∈ p.2.depends,
      ((lookupModule badRegistry d).isSome = true ∧ rankOf d < rankOf p.1) := by decide

theorem badRegistry_rank_lt : ∀ p ∈ badRegistry, rankOf p.1 < 12 := by decide

theorem known_dep_facts {name : String} {m : Module}
    (h : lookupModule badRegistry name = some m) :
    ∀ d ∈ m.depends, (lookupModule badRegistry d).isSome = true ∧ rankOf d < rankOf name :=
  badRegistry_dep_facts (name, m) (lookupModule_mem h)

theorem known_rank_lt {name : String}
    (h : (lookupModule badRegistry name).isSome = true) : rankOf name < 12 := by
  obtain ⟨m, hm⟩ := Option.isSome_iff_exists.mp h
  exact badRegistry_rank_lt (name, m) (lookupModule_mem hm)

theorem resolveFold_adequate
    (f : String → List String → Except ResolveError (List String)) :
    ∀ ns, (∀ d ∈ ns, ∀ s, ∃ t, f d s = Except.ok t) →
      ∀ s, ∃ r, resolveFold f ns s = Except.ok r
  | [], _, s => ⟨s, rfl⟩
  | d :: ds, h, s => by
    obtain ⟨u, hu⟩ := h d (List.mem_cons_self d ds) s
    obtain ⟨r, hr⟩ := resolveFold_adequate f ds
      (fun x hx => h x (List.mem_cons_of_mem d hx)) u
    exact ⟨r, by simp only [resolveFold, hu, hr]⟩

/-- With `badRegistry`, any fuel strictly above a registered name's rank is
enough for `resolve_module` to succeed on it: the recursion depth of the
Python implementation is bounded by the dependency depth. -/
theorem resolveModule_adequate :
    ∀ fuel name, (lookupModule badRegistry name).isSome = true → rankOf name < fuel →
      ∀ s, ∃ t, resolveModule badRegistry fuel name s = Except.ok t := by
  intro fuel
  induction fuel with
  | zero => intro name _ h; exact absurd h (Nat.not_lt_zero _)
  | succ fuel ih =>
    intro name hknown hrank s
    by_cases hm : name ∈ s
    · exact ⟨s, by rw [resolveModule, if_pos hm]⟩
    · obtain ⟨m, hl⟩ := Option.isSome_iff_exists.mp hknown
      have hdeps := known_dep_facts hl
      obtain ⟨r, hr⟩ := resolveFold_adequate (fun d s => resolveModule badRegistry fuel d s)
        m.depends
        (fun d hd s => ih d (hdeps d hd).1 (by have := (hdeps d hd).2; omega) s) s
      refine ⟨setAdd r name, ?_⟩
      rw [resolveModule, if_neg hm]
      simp only [hl, hr]

/-- Everything a successful `resolve_dependencies` run guarantees:
dependency-closedness, registry-membership of every member, inclusion of
every requested name, and inclusion of `"core"`. -/
theorem resolve_ok_facts {reg : List (String × Module)} {fuel : Nat}
    {names res : List String}
    (h : resolve_dependencies reg fuel names = Except.ok res) :
    DepClosed reg res ∧ AllKnown reg res ∧ (∀ n ∈ names, n ∈ res) ∧ "core" ∈ res := by
  unfold resolve_dependencies at h
  cases hc : resolveModule reg fuel "core" [] with
  | error e => rw [hc] at h; cases h
  | ok r0 =>
    simp only [hc] at h
    obtain ⟨_, c2, c3, c4⟩ := resolveModule_ok_facts reg fuel "core" [] r0 hc
    obtain ⟨g1, g2, g3, g4⟩ := resolveFold_ok_facts reg _
      (fun d s t hds => resolveModule_ok_facts reg fuel d s t hds) names r0 res h
    refine ⟨g3 (c3 ?_), g4 (c4 ?_), g2, g1 c2⟩
    · exact fun n hn => absurd hn (List.not_mem_nil n)
    · exact fun n hn => absurd hn (List.not_mem_nil n)

/-- A successful `resolve_dependencies` run whose request lies inside a
dependency-closed set `T` containing `"core"` stays inside `T`. -/
theorem resolve_bounded {reg : List (String × Module)} {fuel : Nat}
    {names res : List String} (T : List String)
    (hT : DepClosed reg T) (hcore : "core" ∈ T) (hnames : ∀ n ∈ names, n ∈ T)
    (h : resolve_dependencies reg fuel names = Except.ok res) : res ⊆ T := by
  unfold resolve_dependencies at h
  cases hc : resolveModule reg fuel "core" [] with
  | error e => rw [hc] at h; cases h
  | ok r0 =>
    simp only [hc] at h
    have h0 : r0 ⊆ T := resolveModule_bounded reg T hT fuel "core" [] r0 hcore
      (fun x hx => absurd hx (List.not_mem_nil x)) hc
    exact resolveFold_bounded T _
      (fun d s t hdT hsT => resolveModule_bounded reg T hT fuel d s t hdT hsT)
      names r0 res hnames h0 h

/-- Any request made only of registered names resolves successfully once
the fuel is at least 12 (the dependency depth of `badRegistry` is 3). -/
theorem resolve_adequate (names : List String) (fuel : Nat) (hfuel : 12 ≤ fuel)
    (hknown : ∀ n ∈ names, (lookupModule badRegistry n).isSome = true) :
    ∃ res, resolve_dependencies badRegistry fuel names = Except.ok res := by
  have hcore : (lookupModule badRegistry "core").isSome = true := by decide
  obtain ⟨r0, hr0⟩ := resolveModule_adequate fuel "core" hcore
    (by have := known_rank_lt hcore; omega) []
  obtain ⟨res, hres⟩ := resolveFold_adequate
    (fun d s => resolveModule badRegistry fuel d s) names
    (fun d hd s => resolveModule_adequate fuel d (hknown d hd)
      (by have := known_rank_lt (hknown d hd); omega) s) r0
  exact ⟨res, by unfold resolve_dependencies; simp only [hr0, hres]⟩

theorem resolveFold_unknown (fuel : Nat) (hfuel : 12 ≤ fuel) :
    ∀ ns s, AllKnown badRegistry s → (∃ n ∈ ns, lookupModule badRegistry n = none) →
      ∃ b, lookupModule badRegistry b = none ∧
        resolveFold (fun d s => resolveModule badRegistry fuel d s) ns s =
          Except.error (ResolveError.unknown b)
  | [], _, _, h => absurd h (by simp)
  | n :: rest, s, hk, h => by
    cases hl : lookupModule badRegistry n with
    | none =>
      refine ⟨n, hl, ?_⟩
      have hns : n ∉ s := fun hns => by
        have hsome := hk n hns
        rw [hl] at hsome
        cases hsome
      obtain ⟨f, rfl⟩ : ∃ f, fuel = f + 1 := ⟨fuel - 1, by omega⟩
      simp only [resolveFold, resolveModule, if_neg hns, hl]
    | some m =>
      have hkn : (lookupModule badRegistry n).isSome = true := by rw [hl]; rfl
      obtain ⟨u, hu⟩ := resolveModule_adequate fuel n hkn
        (by have := known_rank_lt hkn; omega) s
      have hku : AllKnown badRegistry u :=
        (resolveModule_ok_facts badRegistry fuel n s u hu).2.2.2 hk
      have hrest : ∃ b ∈ rest, lookupModule badRegistry b = none := by
        obtain ⟨b, hb, hbn⟩ := h
        rcases List.mem_cons.mp hb with rfl | hb
        · rw [hl] at hbn; cases hbn
        · exact ⟨b, hb, hbn⟩
      obtain ⟨b, hb1, hb2⟩ := resolveFold_unknown fuel hfuel rest u hku hrest
      exact ⟨b, hb1, by simp only [resolveFold, hu, hb2]⟩

/-- With `badRegistry` and adequate fuel, a request containing an
unregistered name makes `resolve_dependencies` raise the unknown-module
error (never the fuel error, and never a result). -/
theorem resolve_unknown (names : List String) (fuel : Nat) (hfuel : 12 ≤ fuel)
    (h : ∃ n ∈ names, lookupModule badRegistry n = none) :
    ∃ b, lookupModule badRegistry b = none ∧
      resolve_dependencies badRegistry fuel names = Except.error (ResolveError.unknown b) := by
  have hcore : (lookupModule badRegistry "core").isSome = true := by decide
  obtain ⟨r0, hr0⟩ := resolveModule_adequate fuel "core" hcore
    (by have := known_rank_lt hcore; omega) []
  have hk0 : AllKnown badRegistry r0 :=
    (resolveModule_ok_facts badRegistry fuel "core" [] r0 hr0).2.2.2
      (fun n hn => absurd hn (List.not_mem_nil n))
  obtain ⟨b, hb1, hb2⟩ := resolveFold_unknown fuel hfuel names r0 hk0 h
  exact ⟨b, hb1, by unfold resolve_dependencies; simp only [hr0, hb2]⟩

/-- On the cyclic registry, `resolve_module` never returns on a cycle
member: the member is only added to `resolved` after its dependencies, so
the mutual recursion repeats forever and exhausts any recursion budget. -/
theorem cycReg_stuck :
    ∀ fuel s, "alpha" ∉ s → "beta" ∉ s →
      resolveModule cycReg fuel "alpha" s = Except.error ResolveError.fuel ∧
      resolveModule cycReg fuel "beta" s = Except.error ResolveError.fuel := by
  intro fuel
  induction fuel with
  | zero => intro s _ _; exact ⟨rfl, rfl⟩
  | succ fuel ih =>
    intro s ha hb
    constructor
    · have hla : lookupModule cycReg "alpha" =
          some ⟨"first half of a cycle", ["beta"], [], [], [], false⟩ := rfl
      rw [resolveModule, if_neg ha]
      simp only [hla, resolveFold, (ih s ha hb).2]
    · have hlb : lookupModule cycReg "beta" =
          some ⟨"second half of a cycle", ["alpha"], [], [], [], false⟩ := rfl
      rw [resolveModule, if_neg hb]
      simp only [hlb, resolveFold, (ih s ha hb).1]

/-! ## Claims about the dependency resolver -/

/-- **C1.** Whenever `resolve_dependencies` on the program's registry
returns a resolved set — in particular for every request made only of
registered names — that set is dependency-closed: every name in the
dependency list of every member is itself a member. -/
theorem claim_c1_resolve_closed (names : List String) (fuel : Nat) (res : List String)
    (h : resolve_dependencies badRegistry fuel names = Except.ok res) :
    DepClosed badRegistry res :=
  (resolve_ok_facts h).1

theorem claim_c1_witness :
    DepClosed badRegistry ["core", "result", "time_utils", "debug"] :=
  claim_c1_resolve_closed ["debug"] 20 ["core", "result", "time_utils", "debug"] rfl

/-- **C3 (code defect).** On a registry whose dependency graph has a
genuine cycle, `resolve_dependencies` never reports a distinct
cyclic-dependency error and never returns a set: a cycle member is added
to `resolved` only *after* its dependencies, so the recursion revisits the
cycle without ever terminating, exhausting every recursion budget
(Python raises `RecursionError` at its recursion limit).  No
cyclic-dependency error exists anywhere in the code. -/
theorem claim_c3_cycle_divergence (fuel : Nat) :
    resolve_dependencies cycReg fuel ["alpha"] = Except.error ResolveError.fuel := by
  cases fuel with
  | zero => rfl
  | succ f =>
    have hc : resolveModule cycReg (f + 1) "core" [] = Except.ok ["core"] := rfl
    unfold resolve_dependencies
    simp only [hc, resolveFold,
      (cycReg_stuck (f + 1) ["core"] (by decide) (by decide)).1]

/-- **C4.** With adequate fuel, a request containing a name absent from
the registry makes `resolve_dependencies` raise the unknown-module error —
by construction no partial resolved set escapes a raise — and `main`'s
`try` block then aborts on that exception, so no build or test phase is
ever invoked; the second conjunct records that any unknown-module failure
aborts `main`'s phase list the same way on any registry. -/
theorem claim_c4_unknown_aborts :
    (∀ names fuel, 12 ≤ fuel → (∃ n ∈ names, lookupModule badRegistry n = none) →
      ∃ b, lookupModule badRegistry b = none ∧
        resolve_dependencies badRegistry fuel names =
          Except.error (ResolveError.unknown b) ∧
        ∀ testOnly runTest, main_phases badRegistry fuel names testOnly runTest =
          Except.error (ResolveError.unknown b)) ∧
    (∀ reg fuel names b testOnly runTest,
      resolve_dependencies reg fuel names = Except.error (ResolveError.unknown b) →
      main_phases reg fuel names testOnly runTest =
        Except.error (ResolveError.unknown b)) := by
  constructor
  · intro names fuel hfuel h
    obtain ⟨b, hb1, hb2⟩ := resolve_unknown names fuel hfuel h
    exact ⟨b, hb1, hb2, fun tO t => by unfold main_phases; simp only [hb2]⟩
  · intro reg fuel names b tO t h
    unfold main_phases
    simp only [h]

theorem claim_c4_witness :
    ∃ b, lookupModule badRegistry b = none ∧
      resolve_dependencies badRegistry 12 ["bogus"] =
        Except.error (ResolveError.unknown b) ∧
      ∀ testOnly runTest, main_phases badRegistry 12 ["bogus"] testOnly runTest =
        Except.error (ResolveError.unknown b) :=
  claim_c4_unknown_aborts.1 ["bogus"] 12 (by decide) ⟨"bogus", by decide, by decide⟩

/-- **C7.** `"core"` is a member of every set `resolve_dependencies`
returns, and resolving the empty request yields exactly the singleton
`{"core"}`, for every non-zero recursion budget. -/
theorem claim_c7_core_mandatory :
    (∀ fuel names res, resolve_dependencies badRegistry fuel names = Except.ok res →
      "core" ∈ res) ∧
    (∀ fuel, resolve_dependencies badRegistry (fuel + 1) [] = Except.ok ["core"]) :=
  ⟨fun _ _ _ h => (resolve_ok_facts h).2.2.2, fun _ => rfl⟩

theorem claim_c7_witness : "core" ∈ ["core", "result", "time_utils", "debug"] :=
  claim_c7_core_mandatory.1 20 ["debug"] ["core", "result", "time_utils", "debug"] rfl

/-- **C8.** Idempotence: feeding a set returned by `resolve_dependencies`
back in as the request (with adequate fuel for the second run) succeeds
and returns the same set up to membership. -/
theorem claim_c8_idempotent (names : List String) (fuel : Nat) (res : List String)
    (h : resolve_dependencies badRegistry fuel names = Except.ok res)
    (fuel2 : Nat) (hfuel2 : 12 ≤ fuel2) :
    ∃ res2, resolve_dependencies badRegistry fuel2 res = Except.ok res2 ∧
      res2 ⊆ res ∧ res ⊆ res2 := by
  obtain ⟨hclosed, hknown, _, hcore⟩ := resolve_ok_facts h
  obtain ⟨res2, hres2⟩ := resolve_adequate res fuel2 hfuel2 hknown
  exact ⟨res2, hres2,
    resolve_bounded res hclosed hcore (fun n hn => hn) hres2,
    fun n hn => (resolve_ok_facts hres2).2.2.1 n hn⟩

theorem claim_c8_witness :
    ∃ res2, resolve_dependencies badRegistry 12 ["core", "result", "time_utils", "debug"] =
      Except.ok res2 ∧ res2 ⊆ ["core", "result", "time_utils", "debug"] ∧
      ["core", "result", "time_utils", "debug"] ⊆ res2 :=
  claim_c8_idempotent ["debug"] 20 ["core", "result", "time_utils", "debug"] rfl 12
    (by decide)

/-- **C9.** With adequate fuel, resolving a request made only of
registered names succeeds, the result contains every requested name
(`R ⊆ resolve(R)`), and every member of the result is a registered name. -/
theorem claim_c9_inflationary (names : List String) (fuel : Nat) (hfuel : 12 ≤ fuel)
    (hknown : ∀ n ∈ names, (lookupModule badRegistry n).isSome = true) :
    ∃ res, resolve_dependencies badRegistry fuel names = Except.ok res ∧
      (∀ n ∈ names, n ∈ res) ∧ AllKnown badRegistry res := by
  obtain ⟨res, hres⟩ := resolve_adequate names fuel hfuel hknown
  exact ⟨res, hres, (resolve_ok_facts hres).2.2.1, (resolve_ok_facts hres).2.1⟩

theorem claim_c9_witness :
    ∃ res, resolve_dependencies badRegistry 12 ["file_utils", "memory"] = Except.ok res ∧
      (∀ n ∈ ["file_utils", "memory"], n ∈ res) ∧ AllKnown badRegistry res :=
  claim_c9_inflationary ["file_utils", "memory"] 12 (by decide) (by decide)

/-- **C10.** The module set `main` hands to the test phase — the resolved
set united with `{"test_framework"}`, whether or not `test_framework` was
requested — is still dependency-closed, because `test_framework` depends
only on `core` and every resolved set contains `core`. -/
theorem claim_c10_test_modules_closed (fuel : Nat) (names res : List String)
    (h : resolve_dependencies badRegistry fuel names = Except.ok res) :
    DepClosed badRegistry (main_test_modules res) ∧
      "test_framework" ∈ main_test_modules res ∧
      ∀ x ∈ main_test_modules res, x ∈ res ∨ x = "test_framework" := by
  obtain ⟨hclosed, _, _, hcore⟩ := resolve_ok_facts h
  have hdeps : depsOf badRegistry "test_framework" = ["core"] := rfl
  unfold main_test_modules
  refine ⟨?_, self_mem_setAdd res "test_framework", fun x hx => mem_setAdd.mp hx⟩
  intro n hn d hd
  rcases mem_setAdd.mp hn with hn | rfl
  · exact subset_setAdd res "test_framework" (hclosed n hn d hd)
  · rw [hdeps] at hd
    rcases List.mem_singleton.mp hd with rfl
    exact subset_setAdd res "test_framework" hcore

theorem claim_c10_witness :
    DepClosed badRegistry (main_test_modules ["core", "result", "time_utils", "debug"]) ∧
      "test_framework" ∈ main_test_modules ["core", "result", "time_utils", "debug"] ∧
      ∀ x ∈ main_test_modules ["core", "result", "time_utils", "debug"],
        x ∈ ["core", "result", "time_utils", "debug"] ∨ x = "test_framework" :=
  claim_c10_test_modules_closed 20 ["debug"] ["core", "result", "time_utils", "debug"] rfl

/-! ## Claims about source gathering and the build pipeline -/

/-- **C2 (counterexample).** Two iteration orders of one and the same
resolved set — a real possibility for a Python `set`, whose iteration
order is unspecified — yield *different* source sequences, and the
sequence also differs from the registry-declaration-order gathering the
spec describes: `collect_sources` follows set iteration order. -/
theorem claim_c2_counterexample :
    List.Perm ["core", "string_utils", "math_utils"] ["core", "math_utils", "string_utils"] ∧
    collect_sources allFilesExist badRegistry ["core", "string_utils", "math_utils"] ≠
      collect_sources allFilesExist badRegistry ["core", "math_utils", "string_utils"] ∧
    collect_sources allFilesExist badRegistry ["core", "math_utils", "string_utils"] ≠
      registryOrderSources allFilesExist badRegistry
        ["core", "math_utils", "string_utils"] := by
  decide

/-- **C2 (amended).** What `collect_sources` does guarantee: the
*multiset* of gathered sources is determined by the membership of the
module set — iteration orders that are permutations of one another give
permutations of the gathered sequence — while the sequence itself follows
the set's iteration order, not registry declaration order. -/
theorem claim_c2_sources_perm (fs : String → Bool) (reg : List (String × Module))
    (iter1 iter2 : List String) (h : List.Perm iter1 iter2) :
    List.Perm (collect_sources fs reg iter1) (collect_sources fs reg iter2) :=
  h.flatMap_right _

theorem claim_c2_witness :
    List.Perm (collect_sources allFilesExist badRegistry ["string_utils", "math_utils"])
      (collect_sources allFilesExist badRegistry ["math_utils", "string_utils"]) :=
  claim_c2_sources_perm allFilesExist badRegistry ["string_utils", "math_utils"]
    ["math_utils", "string_utils"] (by decide)

/-- If some source in the list fails to compile, the compile loop of
`build_library` stops at the first failing source and reports that file's
basename together with the compiler's stderr. -/
theorem compileLoop_fails (comp : String → ProcResult) :
    ∀ srcs, (∃ s ∈ srcs, (comp s).returncode ≠ 0) →
      ∃ s, s ∈ srcs ∧ (comp s).returncode ≠ 0 ∧
        (compileLoop comp srcs).2 = Except.error (baseName s, (comp s).stderr)
  | [], h => absurd h (by simp)
  | x :: rest, h => by
    by_cases hc : ((comp x).returncode == 0) = true
    · have hx : (comp x).returncode = 0 := by simpa using hc
      have hrest : ∃ s ∈ rest, (comp s).returncode ≠ 0 := by
        obtain ⟨s, hs, hne⟩ := h
        rcases List.mem_cons.mp hs with rfl | hs
        · exact absurd hx hne
        · exact ⟨s, hs, hne⟩
      obtain ⟨s, hs1, hs2, hs3⟩ := compileLoop_fails comp rest hrest
      refine ⟨s, List.mem_cons_of_mem x hs1, hs2, ?_⟩
      simp only [compileLoop]
      rw [if_pos hc]
      simp only [hs3]
    · have hx : (comp x).returncode ≠ 0 := by simpa using hc
      refine ⟨x, List.mem_cons_self x rest, hx, ?_⟩
      simp only [compileLoop]
      rw [if_neg hc]

/-- Every event the compile loop emits is a compiler invocation — never an
archiver invocation. -/
theorem compileLoop_events_compile (comp : String → ProcResult) :
    ∀ srcs ev, ev ∈ (compileLoop comp srcs).1 → ∃ s, ev = BuildEvent.compileCall s
  | [], ev, h => absurd h (by simp [compileLoop])
  | x :: rest, ev, h => by
    by_cases hc : ((comp x).returncode == 0) = true
    · simp only [compileLoop] at h
      rw [if_pos hc] at h
      rcases List.mem_cons.mp h with rfl | h
      · exact ⟨x, rfl⟩
      · exact compileLoop_events_compile comp rest ev h
    · simp only [compileLoop] at h
      rw [if_neg hc] at h
      rcases List.mem_singleton.mp h with rfl
      exact ⟨x, rfl⟩

/-- Membership in the gathered source list comes from a registered module
that declares the source. -/
theorem collect_sources_mem {fs : String → Bool} {reg : List (String × Module)}
    {iter : List String} {s : String} (h : s ∈ collect_sources fs reg iter) :
    ∃ n m, lookupModule reg n = some m ∧ ∃ d ∈ m.sources, s = "src/" ++ d := by
  unfold collect_sources at h
  obtain ⟨n, _, hs⟩ := List.mem_flatMap.mp h
  obtain ⟨hs1, _⟩ := List.mem_filter.mp hs
  obtain ⟨d, hd, rfl⟩ := List.mem_map.mp hs1
  unfold sourcesOf at hd
  cases hl : lookupModule reg n with
  | none => rw [hl] at hd; cases hd
  | some m => rw [hl] at hd; exact ⟨n, m, hl, d, hd, rfl⟩

/-- In the program's registry, every declared source file is named after
its module: the file stem of the source path is the module's name. -/
theorem badRegistry_source_stems :
    ∀ p ∈ badRegistry, ∀ d ∈ p.2.sources, fileStem ("src/" ++ d) = p.1 := by decide

/-- **C5.** If any gathered source fails to compile, `build_library`
aborts at the first failing source: the result is a compile error carrying
that file's basename and the captured stderr, the recorded process events
contain no archiver invocation — so no archive file is written or updated
— and the failure names the owning module, whose name is the reported
file's stem. -/
theorem claim_c5_compile_failure_atomic (fs : String → Bool)
    (comp : String → ProcResult) (arch : List String → ProcResult)
    (iter : List String)
    (h : ∃ s ∈ collect_sources fs badRegistry iter, (comp s).returncode ≠ 0) :
    ∃ s evs, s ∈ collect_sources fs badRegistry iter ∧ (comp s).returncode ≠ 0 ∧
      build_library fs comp arch badRegistry iter =
        (BuildOutcome.compileError (baseName s) (comp s).stderr, evs) ∧
      (∀ objs, BuildEvent.archiveCall objs ∉ evs) ∧
      (∃ n m, lookupModule badRegistry n = some m ∧ fileStem s = n) := by
  obtain ⟨s0, hs0, hne0⟩ := h
  obtain ⟨s, hs, hne, hloop⟩ :=
    compileLoop_fails comp (collect_sources fs badRegistry iter) ⟨s0, hs0, hne0⟩
  refine ⟨s, (compileLoop comp (collect_sources fs badRegistry iter)).1, hs, hne,
    ?_, ?_, ?_⟩
  · have hne3 : ¬((collect_sources fs badRegistry iter).isEmpty = true) := by
      cases hcs : collect_sources fs badRegistry iter with
      | nil => rw [hcs] at hs; cases hs
      | cons a l => simp
    have hpair : compileLoop comp (collect_sources fs badRegistry iter) =
        ((compileLoop comp (collect_sources fs badRegistry iter)).1,
          Except.error (baseName s, (comp s).stderr)) := Prod.ext rfl hloop
    unfold build_library
    rw [if_neg hne3, hpair]
  · intro objs hmem
    obtain ⟨s2, hs2⟩ := compileLoop_events_compile comp _ _ hmem
    cases hs2
  · obtain ⟨n, m, hl, d, hd, rfl⟩ := collect_sources_mem hs
    exact ⟨n, m, hl, badRegistry_source_stems (n, m) (lookupModule_mem hl) d hd⟩

theorem claim_c5_witness :
    ∃ s evs, s ∈ collect_sources allFilesExist badRegistry ["core", "math_utils"] ∧
      (failing_comp s).returncode ≠ 0 ∧
      build_library allFilesExist failing_comp quiet_arch badRegistry
        ["core", "math_utils"] =
        (BuildOutcome.compileError (baseName s) (failing_comp s).stderr, evs) ∧
      (∀ objs, BuildEvent.archiveCall objs ∉ evs) ∧
      (∃ n m, lookupModule badRegistry n = some m ∧ fileStem s = n) :=
  claim_c5_compile_failure_atomic allFilesExist failing_comp quiet_arch
    ["core", "math_utils"] ⟨"src/modules/math_utils.cpp", by decide, by decide⟩

/-- A test passes exactly when its compilation exited 0 and its executable
exited 0. -/
theorem isPassed_runOneTest (compT : String → ProcResult) (runT : String → Int)
    (f : String) :
    isPassed (runOneTest compT runT f) =
      ((compT f).returncode == 0 && (runT f == 0)) := by
  unfold runOneTest
  by_cases hc : ((compT f).returncode == 0) = true
  · rw [if_pos hc]
    by_cases hr : ((runT f) == 0) = true
    · rw [if_pos hr]; simp [isPassed, hc, hr]
    · rw [if_neg hr]
      simp only [Bool.not_eq_true] at hr
      simp [isPassed, hc, hr]
  · rw [if_neg hc]
    simp only [Bool.not_eq_true] at hc
    simp [isPassed, hc]

/-- **C6.** `build_tests` attempts every discovered test, in discovery
order, never stopping early; `success_count` is exactly the number of
discovered tests that compiled and whose executable exited with status 0;
and the failing tests are exactly the complementary discovered tests, with
compile failures counted among them. -/
theorem claim_c6_test_counts (fs : String → Bool) (compT : String → ProcResult)
    (runT : String → Int) (iter : List String) :
    (build_tests fs compT runT iter).results.map Prod.fst = test_files fs iter ∧
    (build_tests fs compT runT iter).total_count = (test_files fs iter).length ∧
    (build_tests fs compT runT iter).success_count =
      ((test_files fs iter).filter
        (fun f => (compT f).returncode == 0 && (runT f == 0))).length ∧
    ((build_tests fs compT runT iter).results.filter
        (fun r => !isPassed r.2)).map Prod.fst =
      (test_files fs iter).filter
        (fun f => !((compT f).returncode == 0 && (runT f == 0))) := by
  unfold build_tests
  by_cases he : ((test_files fs iter).isEmpty = true)
  · rw [if_pos he]
    rw [List.isEmpty_iff] at he
    rw [he]
    exact ⟨rfl, rfl, rfl, rfl⟩
  · rw [if_neg he]
    dsimp only
    refine ⟨?_, ?_, ?_, ?_⟩
    · rw [List.map_map]
      exact List.map_id _
    · rfl
    · rw [List.filter_map, List.length_map]
      simp only [Function.comp_def, isPassed_runOneTest]
    · rw [List.filter_map, List.map_map]
      have hid : (Prod.fst ∘ fun f => (f, runOneTest compT runT f)) = id := rfl
      rw [hid, List.map_id]
      simp only [Function.comp_def, isPassed_runOneTest]

end ModularBuild
